import Mathlib

/-
Verification of the failure-window labeling core of DiskDriveDaysPredictor
(src/Code/utility/ProcessData.py, a Python 2 program).

The embedding models, faithfully to CPython 2.7 semantics:
  - calendar dates (datetime objects restricted to the date part, since the
    format %Y-%m-%d never sets a time component) as year/month/day records,
    compared through their proleptic Gregorian ordinal, exactly as datetime
    comparison and datetime + timedelta behave on midnight datetimes;
  - ProcessData.__parse_date: datetime.strptime(s, "%Y-%m-%d"), which accepts
    exactly a 4-digit year, a 1-2 digit month and a 1-2 digit day separated by
    dashes, validates the calendar (month 1-12, day 1-days_in_month, year at
    least 1), and returns None on any failure;
  - ProcessData.__format_date: datetime.strftime(d, "%Y-%m-%d"), which in
    CPython 2.7 raises ValueError for years before 1900 (the method is
    documented to require year >= 1900), so the wrapper returns None there;
    it also returns None when handed None instead of a datetime;
  - int(s) on a str: optional surrounding whitespace, optional sign, a
    nonempty digit run;
  - the cell values a row (a Python list) can hold during
    __update_data_to_include_classfication_output_labels: CSV strings,
    datetime objects, None, and appended label booleans (inductive Field);
  - the labeling pass itself, including its exception behavior: in Python 2,
    None + timedelta raises TypeError, and an ordering comparison between
    None and a datetime raises TypeError (datetime_richcompare calls cmperror
    for operands that are not datetimes and lack a timetuple attribute), and
    both are swallowed by the per-row try/except, leaving that row without
    labels.  datetime + timedelta raises OverflowError past year 9999, which
    the same handler swallows.

Positions: date_index = 0 and fail_index = 1 throughout, because the header
built by __read_csv_data_for_drive_model is [date, failure, smart attrs...]
and headers.index("date") / headers.index("failure") find those first
occurrences.  Rows are assumed nonempty (they always carry at least the date
and failure cells produced by the extractor); an empty row would make the
Python code raise IndexError before any labeling happens.
-/

namespace DiskDrive

/-- A calendar date, the value carried by a datetime object produced by
datetime.strptime with format %Y-%m-%d (the time part is always midnight and
never observed). -/
structure Date where
  year : Nat
  month : Nat
  day : Nat
deriving DecidableEq

/-- Gregorian leap-year rule, as in Python datetime. -/
def isLeapYear (y : Nat) : Bool :=
  (y % 4 == 0 && y % 100 != 0) || y % 400 == 0

/-- Days in a month of a given year, as in Python datetime. -/
def daysInMonth (y m : Nat) : Nat :=
  if m == 2 then (if isLeapYear y then 29 else 28)
  else if m == 4 || m == 6 || m == 9 || m == 11 then 30
  else 31

/-- Days in all years strictly before year y (proleptic Gregorian). -/
def daysBeforeYear (y : Nat) : Nat :=
  365 * (y - 1) + (y - 1) / 4 - (y - 1) / 100 + (y - 1) / 400

/-- Days in the months of year y strictly before month m. -/
def daysBeforeMonth (y m : Nat) : Nat :=
  ((List.range (m - 1)).map (fun k => daysInMonth y (k + 1))).foldl (· + ·) 0

/-- Proleptic Gregorian ordinal: 0001-01-01 has ordinal 1, exactly
datetime.toordinal.  Valid datetimes compare (and add timedeltas) exactly as
their ordinals do. -/
def Date.toOrdinal (d : Date) : Nat :=
  daysBeforeYear d.year + daysBeforeMonth d.year d.month + d.day

/-- Ordinal of 9999-12-31, the largest datetime Python supports; adding a
timedelta that passes it raises OverflowError. -/
def maxOrdinal : Nat := Date.toOrdinal ⟨9999, 12, 31⟩

/-- The dates representable as Python datetime values (year 1-9999, real
calendar day). -/
def validDate (d : Date) : Bool :=
  decide (1 ≤ d.year) && decide (d.year ≤ 9999) &&
  decide (1 ≤ d.month) && decide (d.month ≤ 12) &&
  decide (1 ≤ d.day) && decide (d.day ≤ daysInMonth d.year d.month)

/-- Value of a run of ASCII digit characters, most significant first. -/
def digitsToNat (l : List Char) : Nat :=
  l.foldl (fun a c => 10 * a + (c.toNat - 48)) 0

/-- A nonempty run of ASCII digits. -/
def isDigits (l : List Char) : Bool :=
  !l.isEmpty && l.all Char.isDigit

/-- Split a character list at every dash, keeping empty pieces, mirroring how
the strptime regex for %Y-%m-%d carves the input at the literal dashes. -/
def splitDash : List Char → List (List Char)
  | [] => [[]]
  | c :: cs =>
    if c = '-' then [] :: splitDash cs
    else
      match splitDash cs with
      | [] => [[c]]
      | p :: ps => (c :: p) :: ps

/-- ProcessData.__parse_date: datetime.strptime(date_str, "%Y-%m-%d") wrapped
in try/except returning None on failure.  The strptime pattern for %Y is
exactly four digits; %m matches one or two digits with value 1-12; %d matches
one or two digits with value 1-31; the whole string must be consumed; then
constructing the date validates year >= 1 and day <= days_in_month (a year of
0000 or a day like 2015-02-30 raises ValueError, giving None). -/
def parse_date (s : String) : Option Date :=
  match splitDash s.toList with
  | [ys, ms, ds] =>
    if ys.length == 4 && isDigits ys && decide (ms.length ≤ 2) && isDigits ms
        && decide (ds.length ≤ 2) && isDigits ds then
      let y := digitsToNat ys
      let m := digitsToNat ms
      let d := digitsToNat ds
      if decide (1 ≤ y) && decide (1 ≤ m) && decide (m ≤ 12)
          && decide (1 ≤ d) && decide (d ≤ daysInMonth y m) then
        some ⟨y, m, d⟩
      else none
    else none
  | _ => none

/-- The two-character zero-padded decimal rendering used by strftime for %m
and %d (months and days are below 100). -/
def digits2 (n : Nat) : List Char :=
  [Nat.digitChar (n / 10 % 10), Nat.digitChar (n % 10)]

/-- The four-character decimal rendering used by strftime for %Y on years up
to 9999. -/
def digits4 (n : Nat) : List Char :=
  [Nat.digitChar (n / 1000 % 10), Nat.digitChar (n / 100 % 10),
   Nat.digitChar (n / 10 % 10), Nat.digitChar (n % 10)]

/-- ProcessData.__format_date restricted to an actual date argument:
datetime.strftime(d, "%Y-%m-%d").  CPython 2.7 strftime raises ValueError for
years before 1900, which the surrounding try/except turns into None. -/
def format_date (d : Date) : Option String :=
  if d.year < 1900 then none
  else some (String.mk (digits4 d.year ++ '-' :: (digits2 d.month ++ '-' :: digits2 d.day)))

/-- Format-then-reparse composition __parse_date(__format_date(d)): when
formatting failed (None), reparsing None raises inside strptime and
__parse_date returns None again. -/
def round_trip (d : Date) : Option Date :=
  match format_date d with
  | some s => parse_date s
  | none => none

/-- The whitespace characters stripped by int() on a str in Python 2. -/
def isPySpace (c : Char) : Bool :=
  c = ' ' || c = '\t' || c = '\n' || c = '\r' || c = '\x0b' || c = '\x0c'

/-- Python 2 int(s) for a str s: optional surrounding whitespace, an optional
sign, then a nonempty run of digits; anything else raises ValueError,
modelled as none. -/
def pyInt (s : String) : Option Int :=
  match ((s.toList.dropWhile isPySpace).reverse.dropWhile isPySpace).reverse with
  | '-' :: rest => if isDigits rest then some (-(digitsToNat rest : Int)) else none
  | '+' :: rest => if isDigits rest then some ((digitsToNat rest : Int)) else none
  | rest => if isDigits rest then some ((digitsToNat rest : Int)) else none

/-- A value held in one cell of a row list during
__update_data_to_include_classfication_output_labels: a CSV string, a parsed
datetime, Python None, or an appended label boolean. -/
inductive Field where
  | str : String → Field
  | date : Date → Field
  | none : Field
  | bool : Bool → Field
deriving DecidableEq

/-- Recognizer for a datetime cell. -/
def Field.isDate : Field → Bool
  | Field.date _ => true
  | _ => false

/-- datum[date_index], with date_index = 0. -/
def dateCell (r : List Field) : Field := r.getD 0 Field.none

/-- datum[fail_index], with fail_index = 1. -/
def failCell (r : List Field) : Field := r.getD 1 Field.none

/-- int(cell) as used on the failure cell: a str parses as an integer or
raises; a bool converts to 1 or 0; None and datetime raise TypeError.
Failures are none and end up swallowed by the per-row try/except. -/
def intOfField : Field → Option Int
  | Field.str s => pyInt s
  | Field.bool b => some (if b then 1 else 0)
  | _ => Option.none

/-- cell + timedelta(h): defined only on a datetime cell, raising TypeError
otherwise (None + timedelta in particular), and raising OverflowError when
the sum passes 9999-12-31.  The result is kept as an ordinal. -/
def addDays : Field → Nat → Option Nat
  | Field.date d, h =>
    if d.toOrdinal + h ≤ maxOrdinal then some (d.toOrdinal + h) else Option.none
  | _, _ => Option.none

/-- cell <= (datetime of ordinal o): defined on a datetime cell; comparing
None (or a str or bool) against a datetime raises TypeError in Python 2
(datetime refuses mixed ordering comparisons instead of falling back to the
default ordering). -/
def leDate : Field → Nat → Option Bool
  | Field.date d, o => some (decide (d.toOrdinal ≤ o))
  | _, _ => Option.none

/-- The timedelta constants fail_30, fail_15, fail_1 of the labeling pass, in
days. -/
def fail_30 : Nat := 30
/-- See fail_30. -/
def fail_15 : Nat := 15
/-- See fail_30. -/
def fail_1 : Nat := 1

/-- First loop of the labeling pass applied to one cell:
datum[date_index] = __parse_date(datum[date_index]).  A non-str cell makes
strptime raise TypeError, which __parse_date turns into None. -/
def parseDateField : Field → Field
  | Field.str s =>
    match parse_date s with
    | some d => Field.date d
    | Option.none => Field.none
  | _ => Field.none

/-- First loop of the labeling pass applied to one row: replace the date cell
with its parsed value. -/
def parsePhaseRow (r : List Field) : List Field :=
  r.set 0 (parseDateField (dateCell r))

/-- The body of the lambda inside filter:
(x[date_index] <= datum[date_index] + fail_h) and (int(x[fail_index]) == 1),
with Python evaluation order: the addition first (TypeError on a None date,
OverflowError past year 9999), then the comparison (TypeError when the date
of x is None), and int() only evaluated when the comparison held.  none means
an exception escaped the lambda. -/
def lambdaCond (datum x : List Field) (h : Nat) : Option Bool :=
  match addDays (dateCell datum) h with
  | Option.none => Option.none
  | some o =>
    match leDate (dateCell x) o with
    | Option.none => Option.none
    | some false => some false
    | some true =>
      match intOfField (failCell x) with
      | Option.none => Option.none
      | some v => some (decide (v = 1))

/-- bool(filter(lambda, tail)): the lambda is evaluated on every element of
the tail (an exception at any element aborts the whole filter call), and the
result is whether some element satisfied it. -/
def boolFilter (datum : List Field) (h : Nat) : List (List Field) → Option Bool
  | [] => some false
  | x :: xs =>
    match lambdaCond datum x h with
    | Option.none => Option.none
    | some b =>
      match boolFilter datum h xs with
      | Option.none => Option.none
      | some r => some (b || r)

/-- The three appends of the try block for one row, over the tail data[i:]
(which starts with the row itself).  An exception during a filter jumps to
the except handler, so the row keeps only the labels appended so far. -/
def rowLabels (datum : List Field) (tl : List (List Field)) : List Bool :=
  match boolFilter datum fail_30 tl with
  | Option.none => []
  | some b30 =>
    match boolFilter datum fail_15 tl with
    | Option.none => [b30]
    | some b15 =>
      match boolFilter datum fail_1 tl with
      | Option.none => [b30, b15]
      | some b1 => [b30, b15, b1]

/-- The finally block plus the appends already performed: the date cell is
reformatted to a string (None when formatting raises, in particular for a
None date), and the computed labels sit at the end of the row. -/
def formatDateField : Field → Field
  | Field.date d =>
    match format_date d with
    | some s => Field.str s
    | Option.none => Field.none
  | _ => Field.none

/-- The emitted form of one row: original cells with the date cell
reformatted, followed by the appended label booleans. -/
def finalizeRow (datum : List Field) (ls : List Bool) : List Field :=
  datum.set 0 (formatDateField (dateCell datum)) ++ ls.map Field.bool

/-- Second loop of the labeling pass: each row is labeled against the still
unconsumed tail data[i:] (the row itself included), then finalized.  Rows
before position i were already reformatted but are never consulted again. -/
def labelPass : List (List Field) → List (List Field)
  | [] => []
  | datum :: rest => finalizeRow datum (rowLabels datum (datum :: rest)) :: labelPass rest

/-- The temp flag: set when a row just received a true op_fail_30 label (the
check if datum[-1] right after the first append). -/
def batchTemp : List (List Field) → Bool
  | [] => false
  | datum :: rest =>
    ((rowLabels datum (datum :: rest)).head? == some true) || batchTemp rest

/-- ProcessData.__update_data_to_include_classfication_output_labels: extends
the header with the three label columns, parses every date cell, labels and
finalizes every row, and reports the temp flag. -/
def update_data_to_include_classfication_output_labels
    (headers : List String) (data : List (List Field)) :
    List String × List (List Field) × Bool :=
  let hs := headers ++ ["op_fail_30", "op_fail_15", "op_fail_1"]
  let parsed := data.map parsePhaseRow
  (hs, labelPass parsed, batchTemp parsed)

/-- Row i after the date-parsing loop. -/
def parsedRow (data : List (List Field)) (i : Nat) : List Field :=
  (data.map parsePhaseRow).getD i []

/-- The tail data[i:] after the date-parsing loop, the exact set the filter
of row i scans. -/
def parsedTail (data : List (List Field)) (i : Nat) : List (List Field) :=
  (data.map parsePhaseRow).drop i

/-- The labels the pass attaches to row i (empty when the first filter raised
and the except handler ate the row). -/
def labelsAt (data : List (List Field)) (i : Nat) : List Bool :=
  rowLabels (parsedRow data i) (parsedTail data i)

/-- The predicate the specification ascribes to one label: some observation
in the positional tail has a defined (parsed) date at most h days after the
date of the row and an integer failure flag equal to 1. -/
def specLabel (d : Date) (h : Nat) (tl : List (List Field)) : Bool :=
  tl.any fun x =>
    (match dateCell x with
     | Field.date xd => decide (xd.toOrdinal ≤ d.toOrdinal + h)
     | _ => false) && decide (intOfField (failCell x) = some 1)

/-! Auxiliary facts about digits, the dash splitter and the date codecs. -/

theorem digitChar_facts : ∀ k < 10,
    (Nat.digitChar k).isDigit = true ∧ Nat.digitChar k ≠ '-' ∧ (Nat.digitChar k).toNat - 48 = k := by
  decide

theorem digits2_isDigits (n : Nat) : isDigits (digits2 n) = true := by
  have h1 := (digitChar_facts (n / 10 % 10) (Nat.mod_lt _ (by norm_num))).1
  have h0 := (digitChar_facts (n % 10) (Nat.mod_lt _ (by norm_num))).1
  simp [isDigits, digits2, h1, h0]

theorem digits2_noDash (n : Nat) : '-' ∉ digits2 n := by
  have h1 := (digitChar_facts (n / 10 % 10) (Nat.mod_lt _ (by norm_num))).2.1
  have h0 := (digitChar_facts (n % 10) (Nat.mod_lt _ (by norm_num))).2.1
  intro hmem
  rcases List.mem_cons.mp hmem with h | h
  · exact h1 h.symm
  · rcases List.mem_cons.mp h with h | h
    · exact h0 h.symm
    · exact List.not_mem_nil _ h

theorem digits4_isDigits (n : Nat) : isDigits (digits4 n) = true := by
  have h3 := (digitChar_facts (n / 1000 % 10) (Nat.mod_lt _ (by norm_num))).1
  have h2 := (digitChar_facts (n / 100 % 10) (Nat.mod_lt _ (by norm_num))).1
  have h1 := (digitChar_facts (n / 10 % 10) (Nat.mod_lt _ (by norm_num))).1
  have h0 := (digitChar_facts (n % 10) (Nat.mod_lt _ (by norm_num))).1
  simp [isDigits, digits4, h3, h2, h1, h0]

theorem digits4_noDash (n : Nat) : '-' ∉ digits4 n := by
  have h3 := (digitChar_facts (n / 1000 % 10) (Nat.mod_lt _ (by norm_num))).2.1
  have h2 := (digitChar_facts (n / 100 % 10) (Nat.mod_lt _ (by norm_num))).2.1
  have h1 := (digitChar_facts (n / 10 % 10) (Nat.mod_lt _ (by norm_num))).2.1
  have h0 := (digitChar_facts (n % 10) (Nat.mod_lt _ (by norm_num))).2.1
  intro hmem
  rcases List.mem_cons.mp hmem with h | h
  · exact h3 h.symm
  · rcases List.mem_cons.mp h with h | h
    · exact h2 h.symm
    · rcases List.mem_cons.mp h with h | h
      · exact h1 h.symm
      · rcases List.mem_cons.mp h with h | h
        · exact h0 h.symm
        · exact List.not_mem_nil _ h

theorem digitsToNat_digits2 (n : Nat) (hn : n < 100) : digitsToNat (digits2 n) = n := by
  have h1 := (digitChar_facts (n / 10 % 10) (Nat.mod_lt _ (by norm_num))).2.2
  have h0 := (digitChar_facts (n % 10) (Nat.mod_lt _ (by norm_num))).2.2
  simp only [digitsToNat, digits2, List.foldl_cons, List.foldl_nil, h1, h0]
  omega

theorem digitsToNat_digits4 (n : Nat) (hn : n < 10000) : digitsToNat (digits4 n) = n := by
  have h3 := (digitChar_facts (n / 1000 % 10) (Nat.mod_lt _ (by norm_num))).2.2
  have h2 := (digitChar_facts (n / 100 % 10) (Nat.mod_lt _ (by norm_num))).2.2
  have h1 := (digitChar_facts (n / 10 % 10) (Nat.mod_lt _ (by norm_num))).2.2
  have h0 := (digitChar_facts (n % 10) (Nat.mod_lt _ (by norm_num))).2.2
  simp only [digitsToNat, digits4, List.foldl_cons, List.foldl_nil, h3, h2, h1, h0]
  omega

theorem splitDash_ne_nil (l : List Char) : splitDash l ≠ [] := by
  induction l with
  | nil => simp [splitDash]
  | cons c cs ih =>
    by_cases hc : c = '-'
    · simp [splitDash, hc]
    · simp only [splitDash, if_neg hc]
      cases h : splitDash cs with
      | nil => simp
      | cons p ps => simp

theorem splitDash_no_dash (l : List Char) (hl : '-' ∉ l) : splitDash l = [l] := by
  induction l with
  | nil => rfl
  | cons c cs ih =>
    have hc : ¬ (c = '-') := fun h => hl (h ▸ List.mem_cons_self c cs)
    have hcs : '-' ∉ cs := fun h => hl (List.mem_cons_of_mem c h)
    simp [splitDash, hc, ih hcs]

theorem splitDash_append (a r : List Char) (ha : '-' ∉ a) :
    splitDash (a ++ '-' :: r) = a :: splitDash r := by
  induction a with
  | nil => simp [splitDash]
  | cons c cs ih =>
    have hc : ¬ (c = '-') := fun h => ha (h ▸ List.mem_cons_self c cs)
    have hcs : '-' ∉ cs := fun h => ha (List.mem_cons_of_mem c h)
    simp [splitDash, hc, ih hcs]

theorem digits2_length (n : Nat) : (digits2 n).length = 2 := rfl

theorem digits4_length (n : Nat) : (digits4 n).length = 4 := rfl

theorem daysInMonth_le (y m : Nat) : daysInMonth y m ≤ 31 := by
  unfold daysInMonth
  split
  · split <;> omega
  · split <;> omega

/-- For every Python-representable date from year 1900 on, strftime renders
it with %Y-%m-%d and strptime recovers exactly the original date. -/
theorem parse_format (y m dd : Nat) (h1 : 1 ≤ y) (h2 : y ≤ 9999) (h3 : 1 ≤ m)
    (h4 : m ≤ 12) (h5 : 1 ≤ dd) (h6 : dd ≤ daysInMonth y m) :
    parse_date (String.mk (digits4 y ++ '-' :: (digits2 m ++ '-' :: digits2 dd))) = some ⟨y, m, dd⟩ := by
  have hsplit : splitDash (digits4 y ++ '-' :: (digits2 m ++ '-' :: digits2 dd))
      = [digits4 y, digits2 m, digits2 dd] := by
    rw [splitDash_append _ _ (digits4_noDash y), splitDash_append _ _ (digits2_noDash m),
      splitDash_no_dash _ (digits2_noDash dd)]
  have htl : (String.mk (digits4 y ++ '-' :: (digits2 m ++ '-' :: digits2 dd))).toList
      = digits4 y ++ '-' :: (digits2 m ++ '-' :: digits2 dd) := rfl
  have hY : digitsToNat (digits4 y) = y := digitsToNat_digits4 y (by omega)
  have hM : digitsToNat (digits2 m) = m := digitsToNat_digits2 m (by omega)
  have hDD : digitsToNat (digits2 dd) = dd := by
    have := daysInMonth_le y m
    exact digitsToNat_digits2 dd (by omega)
  rw [parse_date, htl]
  simp only [hsplit]
  simp [digits4_isDigits, digits2_isDigits, digits4_length, digits2_length,
    hY, hM, hDD, h1, h3, h4, h5, h6]

/-- Claim C7 (amended): formatting a valid calendar date of year at least
1900 with %Y-%m-%d and re-parsing the resulting string yields the original
date.  (For years below 1900 the Python 2 strftime call raises, __format_date
returns None, and the round trip yields None instead of the original date:
see the counterexample.) -/
theorem C7_round_trip_from_1900 (d : Date) (hv : validDate d = true)
    (hy : 1900 ≤ d.year) : round_trip d = some d := by
  obtain ⟨y, m, dd⟩ := d
  simp only [validDate, Bool.and_eq_true, decide_eq_true_eq] at hv
  obtain ⟨⟨⟨⟨⟨h1, h2⟩, h3⟩, h4⟩, h5⟩, h6⟩ := hv
  have hy' : ¬ (y < 1900) := by
    intro hlt
    exact absurd hy (by simpa using hlt)
  have hfmt : format_date ⟨y, m, dd⟩
      = some (String.mk (digits4 y ++ '-' :: (digits2 m ++ '-' :: digits2 dd))) := by
    rw [format_date, if_neg hy']
  simp only [round_trip, hfmt]
  exact parse_format y m dd h1 h2 h3 h4 h5 h6

theorem C7_round_trip_witness : round_trip ⟨2015, 6, 30⟩ = some ⟨2015, 6, 30⟩ :=
  C7_round_trip_from_1900 ⟨2015, 6, 30⟩ (by decide) (by decide)

/-- Claim C7 counterexample: 1899-12-31 is a valid calendar date (and even a
date the parser itself can produce), yet formatting it raises inside Python 2
strftime, so the round trip returns None rather than the original date. -/
theorem C7_pre_1900_refutes_round_trip :
    validDate ⟨1899, 12, 31⟩ = true ∧ parse_date "1899-12-31" = some ⟨1899, 12, 31⟩ ∧
      round_trip ⟨1899, 12, 31⟩ = Option.none := by
  decide

/-! Cell-level lemmas for the labeling pass. -/

theorem Field.isDate_iff (f : Field) : f.isDate = true ↔ ∃ d, f = Field.date d := by
  cases f <;> simp [Field.isDate]

theorem failCell_set0 (r : List Field) (f : Field) : failCell (r.set 0 f) = failCell r := by
  cases r with
  | nil => rfl
  | cons a t => rfl

theorem dateCell_set0 (r : List Field) (f : Field) (hr : r ≠ []) : dateCell (r.set 0 f) = f := by
  cases r with
  | nil => exact absurd rfl hr
  | cons a t => rfl

theorem failCell_parsePhaseRow (r : List Field) : failCell (parsePhaseRow r) = failCell r :=
  failCell_set0 r _

theorem dateCell_parsePhaseRow (r : List Field) (hr : r ≠ []) :
    dateCell (parsePhaseRow r) = parseDateField (dateCell r) :=
  dateCell_set0 r _ hr

theorem addDays_some {f : Field} {h o : Nat} (hf : addDays f h = some o) :
    ∃ d, f = Field.date d ∧ o = d.toOrdinal + h ∧ d.toOrdinal + h ≤ maxOrdinal := by
  cases f with
  | date d =>
    rw [addDays] at hf
    split at hf
    · exact ⟨d, rfl, (Option.some.inj hf).symm, by assumption⟩
    · exact Option.noConfusion hf
  | str s => exact Option.noConfusion hf
  | none => exact Option.noConfusion hf
  | bool b => exact Option.noConfusion hf

theorem leDate_some {f : Field} {o : Nat} {b : Bool} (hf : leDate f o = some b) :
    ∃ d, f = Field.date d ∧ b = decide (d.toOrdinal ≤ o) := by
  cases f with
  | date d => exact ⟨d, rfl, (Option.some.inj hf).symm⟩
  | str s => exact Option.noConfusion hf
  | none => exact Option.noConfusion hf
  | bool b => exact Option.noConfusion hf

theorem lambdaCond_true_elim {datum x : List Field} {h : Nat}
    (ht : lambdaCond datum x h = some true) :
    intOfField (failCell x) = some 1 ∧
      ∃ d xd, dateCell datum = Field.date d ∧ dateCell x = Field.date xd ∧
        xd.toOrdinal ≤ d.toOrdinal + h ∧ d.toOrdinal + h ≤ maxOrdinal := by
  unfold lambdaCond at ht
  split at ht
  · exact Option.noConfusion ht
  next o ho =>
    obtain ⟨d, hd, rfl, hbound⟩ := addDays_some ho
    split at ht
    · exact Option.noConfusion ht
    next hlef => exact absurd (Option.some.inj ht) (by simp)
    next hlet =>
      obtain ⟨xd, hxd, hb⟩ := leDate_some hlet
      have hxle : xd.toOrdinal ≤ d.toOrdinal + h := by
        have := hb.symm
        simpa using this
      split at ht
      · exact Option.noConfusion ht
      next v hv =>
        have hv1 : v = 1 := by simpa using Option.some.inj ht
        exact ⟨by rw [hv, hv1], d, xd, hd, hxd, hxle, hbound⟩

theorem lambdaCond_eval {datum x : List Field} {d xd : Date} {h : Nat} {v : Int}
    (hd : dateCell datum = Field.date d) (hov : d.toOrdinal + h ≤ maxOrdinal)
    (hxd : dateCell x = Field.date xd) (hv : intOfField (failCell x) = some v) :
    lambdaCond datum x h = some ((decide (xd.toOrdinal ≤ d.toOrdinal + h)) && decide (v = 1)) := by
  unfold lambdaCond
  by_cases hle : xd.toOrdinal ≤ d.toOrdinal + h
  · simp [hd, addDays, hov, leDate, hxd, hle, hv]
  · simp [hd, addDays, hov, leDate, hxd, hle]

theorem lambdaCond_none_of_bad_date {datum x : List Field} {h : Nat}
    (hx : dateCell x = Field.none) : lambdaCond datum x h = Option.none := by
  unfold lambdaCond
  cases hD : addDays (dateCell datum) h with
  | none => rfl
  | some o => rw [hx]; rfl

theorem lambdaCond_some_of_le {datum x : List Field} {h1 h2 : Nat} {b2 : Bool} (hle : h1 ≤ h2)
    (hs : lambdaCond datum x h2 = some b2) : ∃ b1, lambdaCond datum x h1 = some b1 := by
  unfold lambdaCond at hs ⊢
  split at hs
  · exact Option.noConfusion hs
  next o ho =>
    obtain ⟨d, hd, rfl, hbound⟩ := addDays_some ho
    have hbound1 : d.toOrdinal + h1 ≤ maxOrdinal := by omega
    rw [hd]
    rw [show addDays (Field.date d) h1 = some (d.toOrdinal + h1) from by rw [addDays, if_pos hbound1]]
    split at hs
    · exact Option.noConfusion hs
    next hlef =>
      obtain ⟨xd, hxd, hb⟩ := leDate_some hlef
      rw [hxd]
      simp only [leDate]
      by_cases hx1 : xd.toOrdinal ≤ d.toOrdinal + h1
      · have : xd.toOrdinal ≤ d.toOrdinal + h2 := by omega
        exact absurd hb (by simp [this])
      · simp [hx1]
    next hlet =>
      obtain ⟨xd, hxd, hb⟩ := leDate_some hlet
      rw [hxd]
      simp only [leDate]
      by_cases hx1 : xd.toOrdinal ≤ d.toOrdinal + h1
      · simp only [hx1, decide_True]
        split at hs
        · exact Option.noConfusion hs
        next v hv => exact ⟨decide (v = 1), rfl⟩
      · simp [hx1]

theorem lambdaCond_mono {datum x : List Field} {h1 h2 : Nat} {b : Bool} (hle : h1 ≤ h2)
    (h1t : lambdaCond datum x h1 = some true) (h2s : lambdaCond datum x h2 = some b) :
    b = true := by
  obtain ⟨hint, d, xd, hd, hxd, hxle, _⟩ := lambdaCond_true_elim h1t
  have hb2 : ∃ o, addDays (dateCell datum) h2 = some o := by
    unfold lambdaCond at h2s
    split at h2s
    · exact Option.noConfusion h2s
    next o ho => exact ⟨o, ho⟩
  obtain ⟨o, ho⟩ := hb2
  obtain ⟨d', hd', rfl, hbound'⟩ := addDays_some ho
  have hdd : d' = d := by
    rw [hd] at hd'
    exact (Field.date.inj hd').symm
  rw [hdd] at hbound'
  have heval : lambdaCond datum x h2
      = some ((decide (xd.toOrdinal ≤ d.toOrdinal + h2)) && decide ((1 : Int) = 1)) :=
    lambdaCond_eval hd hbound' hxd hint
  rw [heval] at h2s
  have hxle2 : xd.toOrdinal ≤ d.toOrdinal + h2 := by omega
  simpa [hxle2] using (Option.some.inj h2s).symm

/-! Lemmas about the filter, the per-row labels, the output pass and the
batch flag. -/

theorem boolFilter_some_elem {datum : List Field} {h : Nat} {tl : List (List Field)} {b : Bool}
    (hf : boolFilter datum h tl = some b) :
    ∀ x ∈ tl, ∃ bx, lambdaCond datum x h = some bx := by
  induction tl generalizing b with
  | nil => intro x hx; exact absurd hx (List.not_mem_nil x)
  | cons y ys ih =>
    intro x hx
    cases hl : lambdaCond datum y h with
    | none => rw [boolFilter, hl] at hf; exact Option.noConfusion hf
    | some by' =>
      cases hrest : boolFilter datum h ys with
      | none => rw [boolFilter, hl, hrest] at hf; exact Option.noConfusion hf
      | some r =>
        rcases List.mem_cons.mp hx with rfl | hx'
        · exact ⟨by', hl⟩
        · exact ih hrest x hx'

theorem boolFilter_none_of_mem {datum : List Field} {h : Nat} {tl : List (List Field)}
    {x : List Field} (hx : x ∈ tl) (hn : lambdaCond datum x h = Option.none) :
    boolFilter datum h tl = Option.none := by
  induction tl with
  | nil => exact absurd hx (List.not_mem_nil x)
  | cons y ys ih =>
    rcases List.mem_cons.mp hx with rfl | hx'
    · rw [boolFilter, hn]
    · cases hl : lambdaCond datum y h with
      | none => rw [boolFilter, hl]
      | some b => rw [boolFilter, hl, ih hx']

theorem boolFilter_true_iff {datum : List Field} {h : Nat} {tl : List (List Field)} {b : Bool}
    (hf : boolFilter datum h tl = some b) :
    (b = true ↔ ∃ x ∈ tl, lambdaCond datum x h = some true) := by
  induction tl generalizing b with
  | nil =>
    rw [boolFilter] at hf
    have hb : b = false := (Option.some.inj hf).symm
    subst hb
    simp
  | cons y ys ih =>
    cases hl : lambdaCond datum y h with
    | none => rw [boolFilter, hl] at hf; exact Option.noConfusion hf
    | some by' =>
      cases hrest : boolFilter datum h ys with
      | none => rw [boolFilter, hl, hrest] at hf; exact Option.noConfusion hf
      | some r =>
        rw [boolFilter, hl, hrest] at hf
        have hb : b = (by' || r) := (Option.some.inj hf).symm
        subst hb
        constructor
        · intro hor
          rcases Bool.or_eq_true_iff.mp hor with hy | hr
          · exact ⟨y, List.mem_cons_self y ys, hy ▸ hl⟩
          · obtain ⟨x, hx, hxt⟩ := (ih hrest).mp hr
            exact ⟨x, List.mem_cons_of_mem y hx, hxt⟩
        · rintro ⟨x, hx, hxt⟩
          rcases List.mem_cons.mp hx with rfl | hx'
          · rw [hl] at hxt
            rw [Option.some.inj hxt]
            simp
          · have : r = true := (ih hrest).mpr ⟨x, hx', hxt⟩
            simp [this]

theorem boolFilter_some_of_le {datum : List Field} {tl : List (List Field)} {h1 h2 : Nat}
    {b2 : Bool} (hle : h1 ≤ h2) (h2s : boolFilter datum h2 tl = some b2) :
    ∃ b1, boolFilter datum h1 tl = some b1 := by
  induction tl generalizing b2 with
  | nil => exact ⟨false, rfl⟩
  | cons y ys ih =>
    cases hl : lambdaCond datum y h2 with
    | none => rw [boolFilter, hl] at h2s; exact Option.noConfusion h2s
    | some by' =>
      cases hrest : boolFilter datum h2 ys with
      | none => rw [boolFilter, hl, hrest] at h2s; exact Option.noConfusion h2s
      | some r =>
        obtain ⟨c, hc⟩ := lambdaCond_some_of_le hle hl
        obtain ⟨r1, hr1⟩ := ih hrest
        exact ⟨c || r1, by rw [boolFilter, hc, hr1]⟩

theorem boolFilter_mono {datum : List Field} {tl : List (List Field)} {h1 h2 : Nat}
    {b1 b2 : Bool} (hle : h1 ≤ h2) (hf1 : boolFilter datum h1 tl = some b1)
    (hf2 : boolFilter datum h2 tl = some b2) (hb1 : b1 = true) : b2 = true := by
  subst hb1
  obtain ⟨x, hx, hxt⟩ := (boolFilter_true_iff hf1).mp rfl
  obtain ⟨bx, hbx⟩ := boolFilter_some_elem hf2 x hx
  have hbxt : bx = true := lambdaCond_mono hle hxt hbx
  exact (boolFilter_true_iff hf2).mpr ⟨x, hx, hbxt ▸ hbx⟩

theorem rowLabels_eq_cons3 {datum : List Field} {tl : List (List Field)} {a b c : Bool}
    (hl : rowLabels datum tl = [a, b, c]) :
    boolFilter datum fail_30 tl = some a ∧ boolFilter datum fail_15 tl = some b ∧
      boolFilter datum fail_1 tl = some c := by
  cases h30 : boolFilter datum fail_30 tl with
  | none => rw [rowLabels, h30] at hl; exact absurd hl (by simp)
  | some x30 =>
    cases h15 : boolFilter datum fail_15 tl with
    | none => rw [rowLabels, h30, h15] at hl; exact absurd hl (by simp)
    | some x15 =>
      cases h1 : boolFilter datum fail_1 tl with
      | none => rw [rowLabels, h30, h15, h1] at hl; exact absurd hl (by simp)
      | some x1 =>
        rw [rowLabels, h30, h15, h1] at hl
        obtain ⟨ha, hb, hc⟩ : x30 = a ∧ x15 = b ∧ x1 = c := by simpa using hl
        subst ha; subst hb; subst hc
        exact ⟨rfl, rfl, rfl⟩

theorem rowLabels_shape (datum : List Field) (tl : List (List Field)) :
    rowLabels datum tl = [] ∨ ∃ a b c, rowLabels datum tl = [a, b, c] := by
  cases h30 : boolFilter datum fail_30 tl with
  | none => left; rw [rowLabels, h30]
  | some a =>
    obtain ⟨b, h15⟩ := boolFilter_some_of_le (show fail_15 ≤ fail_30 by decide) h30
    obtain ⟨c, h1⟩ := boolFilter_some_of_le (show fail_1 ≤ fail_30 by decide) h30
    right
    exact ⟨a, b, c, by rw [rowLabels, h30, h15, h1]⟩

theorem rowLabels_nil_of_filter_none {datum : List Field} {tl : List (List Field)}
    (h30 : boolFilter datum fail_30 tl = Option.none) : rowLabels datum tl = [] := by
  rw [rowLabels, h30]

theorem labelPass_length (l : List (List Field)) : (labelPass l).length = l.length := by
  induction l with
  | nil => rfl
  | cons d r ih => simp [labelPass, ih]

theorem labelPass_getD (l : List (List Field)) (i : Nat) (hi : i < l.length) :
    (labelPass l).getD i [] = finalizeRow (l.getD i []) (rowLabels (l.getD i []) (l.drop i)) := by
  induction l generalizing i with
  | nil => exact absurd hi (by simp)
  | cons d r ih =>
    cases i with
    | zero => rfl
    | succ j =>
      have hj : j < r.length := by simpa using hi
      simpa [labelPass] using ih j hj

theorem batchTemp_iff (l : List (List Field)) :
    batchTemp l = true ↔
      ∃ i, i < l.length ∧ (rowLabels (l.getD i []) (l.drop i)).head? = some true := by
  induction l with
  | nil => simp [batchTemp]
  | cons d r ih =>
    rw [batchTemp, Bool.or_eq_true, ih]
    constructor
    · rintro (h | ⟨i, hi, hp⟩)
      · exact ⟨0, by simp, by simpa using h⟩
      · exact ⟨i + 1, by simpa using hi, by simpa using hp⟩
    · rintro ⟨i, hi, hp⟩
      cases i with
      | zero => exact Or.inl (by simpa using hp)
      | succ j => exact Or.inr ⟨j, by simpa using hi, by simpa using hp⟩

theorem parsedRow_eq (data : List (List Field)) (i : Nat) (hi : i < data.length) :
    parsedRow data i = parsePhaseRow (data.getD i []) := by
  rw [parsedRow, List.getD_eq_getElem _ _ (by simpa using hi),
    List.getD_eq_getElem _ _ hi, List.getElem_map]

theorem getD_mem_drop {α : Type} (l : List α) (d : α) (i j : Nat) (hij : i ≤ j)
    (hj : j < l.length) : l.getD j d ∈ l.drop i := by
  induction l generalizing i j with
  | nil => simp at hj
  | cons a t ih =>
    cases i with
    | zero =>
      cases j with
      | zero => simp
      | succ j2 =>
        have hmem : t.getD j2 d ∈ t.drop 0 := ih 0 j2 (Nat.zero_le _) (by simpa using hj)
        rw [List.drop_zero] at hmem
        simpa using List.mem_cons_of_mem a hmem
    | succ i2 =>
      cases j with
      | zero => omega
      | succ j2 =>
        have hmem : t.getD j2 d ∈ t.drop i2 := ih i2 j2 (by omega) (by simpa using hj)
        simpa using hmem

theorem parsedRow_mem_parsedTail (data : List (List Field)) (i j : Nat) (hij : i ≤ j)
    (hj : j < data.length) : parsedRow data j ∈ parsedTail data i :=
  getD_mem_drop (data.map parsePhaseRow) [] i j hij (by simpa using hj)

theorem parsedTail_sub (data : List (List Field)) (i : Nat) {x : List Field}
    (hx : x ∈ parsedTail data i) : ∃ r ∈ data, x = parsePhaseRow r := by
  have hx' : x ∈ data.map parsePhaseRow := List.mem_of_mem_drop hx
  obtain ⟨r, hr, hrx⟩ := List.mem_map.mp hx'
  exact ⟨r, hr, hrx.symm⟩

theorem specLabel_iff (d : Date) (h : Nat) (tl : List (List Field)) :
    (specLabel d h tl = true ↔
      ∃ x ∈ tl, (∃ xd, dateCell x = Field.date xd ∧ xd.toOrdinal ≤ d.toOrdinal + h) ∧
        intOfField (failCell x) = some 1) := by
  simp only [specLabel, List.any_eq_true, Bool.and_eq_true, decide_eq_true_eq]
  constructor
  · rintro ⟨x, hx, hm, hint⟩
    refine ⟨x, hx, ?_, hint⟩
    cases hc : dateCell x with
    | date xd =>
      rw [hc] at hm
      exact ⟨xd, rfl, by simpa using hm⟩
    | str s => rw [hc] at hm; exact absurd hm (by simp)
    | none => rw [hc] at hm; exact absurd hm (by simp)
    | bool b => rw [hc] at hm; exact absurd hm (by simp)
  · rintro ⟨x, hx, ⟨xd, hxd, hle⟩, hint⟩
    refine ⟨x, hx, ?_, hint⟩
    rw [hxd]
    simpa using hle

theorem boolFilter_eq_specLabel {datum : List Field} {d : Date} {h : Nat}
    {tl : List (List Field)}
    (hd : dateCell datum = Field.date d) (hov : d.toOrdinal + h ≤ maxOrdinal)
    (hdef : ∀ x ∈ tl, (dateCell x).isDate = true)
    (hfl : ∀ x ∈ tl, (intOfField (failCell x)).isSome = true) :
    boolFilter datum h tl = some (specLabel d h tl) := by
  induction tl with
  | nil => rfl
  | cons y ys ih =>
    obtain ⟨xd, hxd⟩ := (Field.isDate_iff _).mp (hdef y (List.mem_cons_self y ys))
    obtain ⟨v, hv⟩ := Option.isSome_iff_exists.mp (hfl y (List.mem_cons_self y ys))
    have ihh := ih (fun x hx => hdef x (List.mem_cons_of_mem y hx))
      (fun x hx => hfl x (List.mem_cons_of_mem y hx))
    rw [boolFilter, lambdaCond_eval hd hov hxd hv, ihh]
    simp [specLabel, hxd, hv]

/-! The claims.  Claim C1 and C2 are settled against labelsAt, the labels the
pass computes for the row at a given position of the input batch; claims C3,
C4, C8, C9, C10 go through the full
update_data_to_include_classfication_output_labels entry point. -/

/-- Claim C1 (amended): for an observation whose date parses, provided every
observation in the positional tail has a parseable date, every failure flag
in the tail parses as an integer, and the date plus 30 days stays within year
9999, the pass computes exactly the three labels, and the label for horizon h
is true iff some tail observation has a defined date at most h days after the
row's own date and integer failure flag 1 (false when no such observation
exists).  Without those provisos no label need be computed at all: see the
counterexample, where a tail observation with unparseable date makes the
row's label computation raise, so the row gets no labels although a
qualifying failed observation exists. -/
theorem C1_positional_tail_characterization (data : List (List Field)) (i : Nat) (d : Date)
    (hd : dateCell (parsedRow data i) = Field.date d)
    (hov : d.toOrdinal + fail_30 ≤ maxOrdinal)
    (hdef : ∀ x ∈ parsedTail data i, (dateCell x).isDate = true)
    (hfl : ∀ x ∈ parsedTail data i, (intOfField (failCell x)).isSome = true) :
    labelsAt data i = [specLabel d fail_30 (parsedTail data i),
        specLabel d fail_15 (parsedTail data i), specLabel d fail_1 (parsedTail data i)]
      ∧ ∀ h : Nat, (specLabel d h (parsedTail data i) = true ↔
          ∃ x ∈ parsedTail data i,
            (∃ xd, dateCell x = Field.date xd ∧ xd.toOrdinal ≤ d.toOrdinal + h) ∧
              intOfField (failCell x) = some 1) := by
  have hov30 : d.toOrdinal + 30 ≤ maxOrdinal := hov
  have hov15 : d.toOrdinal + fail_15 ≤ maxOrdinal := by
    show d.toOrdinal + 15 ≤ maxOrdinal
    omega
  have hov1 : d.toOrdinal + fail_1 ≤ maxOrdinal := by
    show d.toOrdinal + 1 ≤ maxOrdinal
    omega
  refine ⟨?_, fun h => specLabel_iff d h _⟩
  rw [labelsAt, rowLabels]
  simp only [boolFilter_eq_specLabel hd hov hdef hfl, boolFilter_eq_specLabel hd hov15 hdef hfl,
    boolFilter_eq_specLabel hd hov1 hdef hfl]

/-- Witness for claim C1 at a concrete two-row batch: the failed second row
lies 4 days ahead, so the 30- and 15-day labels of the first row are true and
the 1-day label is false. -/
theorem C1_witness :
    labelsAt [[Field.str "2015-01-01", Field.str "0"], [Field.str "2015-01-05", Field.str "1"]] 0
      = [true, true, false] :=
  ((C1_positional_tail_characterization
    [[Field.str "2015-01-01", Field.str "0"], [Field.str "2015-01-05", Field.str "1"]] 0
    ⟨2015, 1, 1⟩ (by decide) (by decide) (by decide) (by decide)).1).trans (by decide)

/-- Counterexample to claim C1 as stated: the first row's own date parses and
the tail holds an observation with failure flag 1, defined date and date
within the window (the row itself), so C1 demands a true label; but the other
tail observation has an unparseable date, the Python 2 comparison of None
against a datetime raises TypeError inside the filter, and the row is left
with no labels at all. -/
theorem C1_counterexample :
    parse_date "2015-01-01" = some ⟨2015, 1, 1⟩ ∧
    specLabel ⟨2015, 1, 1⟩ fail_30
      (parsedTail [[Field.str "2015-01-01", Field.str "1"], [Field.str "oops", Field.str "0"]] 0)
      = true ∧
    parse_date "oops" = Option.none ∧
    labelsAt [[Field.str "2015-01-01", Field.str "1"], [Field.str "oops", Field.str "0"]] 0
      = [] := by
  decide

/-- Claim C2 (amended): the filter condition has no lower bound, so whenever
the row's labels are computed at all, a tail observation with integer failure
flag 1 and a defined date even strictly earlier than the row's own date
forces all three labels true.  The spec's inclusive window [o.date, o.date+h]
is wrong about its left edge. -/
theorem C2_earlier_failure_triggers_labels (data : List (List Field)) (i : Nat)
    (d xd : Date) (x : List Field)
    (hlen : (labelsAt data i).length = 3)
    (hd : dateCell (parsedRow data i) = Field.date d)
    (hx : x ∈ parsedTail data i)
    (hxd : dateCell x = Field.date xd)
    (hlt : xd.toOrdinal < d.toOrdinal)
    (hfl : intOfField (failCell x) = some 1) :
    labelsAt data i = [true, true, true] := by
  rcases rowLabels_shape (parsedRow data i) (parsedTail data i) with hsh | ⟨a, b, c, hsh⟩
  · rw [labelsAt, hsh] at hlen
    exact absurd hlen (by simp)
  · have hsh' : labelsAt data i = [a, b, c] := hsh
    obtain ⟨h30, h15, h1⟩ := rowLabels_eq_cons3 hsh'
    have key : ∀ hh : Nat, ∀ bb : Bool,
        boolFilter (parsedRow data i) hh (parsedTail data i) = some bb → bb = true := by
      intro hh bb hbf
      obtain ⟨bx, hbx⟩ := boolFilter_some_elem hbf x hx
      obtain ⟨o, ho⟩ : ∃ o, addDays (dateCell (parsedRow data i)) hh = some o := by
        unfold lambdaCond at hbx
        split at hbx
        · exact Option.noConfusion hbx
        next o ho => exact ⟨o, ho⟩
      obtain ⟨d', hd', rfl, hbound⟩ := addDays_some ho
      have hdd : d' = d := by
        rw [hd] at hd'
        exact (Field.date.inj hd').symm
      have hle : xd.toOrdinal ≤ d'.toOrdinal + hh := by rw [hdd]; omega
      have heval := lambdaCond_eval hd' hbound hxd hfl
      have hltrue : lambdaCond (parsedRow data i) x hh = some true := by
        rw [heval]
        simp [hle]
      exact (boolFilter_true_iff hbf).mpr ⟨x, hx, hltrue⟩
    rw [hsh', key fail_30 a h30, key fail_15 b h15, key fail_1 c h1]

/-- Witness for claim C2: with labels computed, an earlier failed tail row
forces all three labels true. -/
theorem C2_witness :
    labelsAt [[Field.str "2015-06-01", Field.str "0"], [Field.str "2015-01-01", Field.str "1"]] 0
      = [true, true, true] :=
  C2_earlier_failure_triggers_labels
    [[Field.str "2015-06-01", Field.str "0"], [Field.str "2015-01-01", Field.str "1"]] 0
    ⟨2015, 6, 1⟩ ⟨2015, 1, 1⟩ [Field.date ⟨2015, 1, 1⟩, Field.str "1"]
    (by decide) (by decide) (by decide) (by decide) (by decide) (by decide)

/-- Counterexample to claim C2 as stated: the only failed observation in the
tail of the first row is dated five months before it, outside the claimed
inclusive window [o.date, o.date + h], yet every label of the first row comes
out true, including the 1-day one. -/
theorem C2_counterexample :
    parse_date "2015-06-01" = some ⟨2015, 6, 1⟩ ∧
    parse_date "2015-01-01" = some ⟨2015, 1, 1⟩ ∧
    Date.toOrdinal ⟨2015, 1, 1⟩ < Date.toOrdinal ⟨2015, 6, 1⟩ ∧
    labelsAt [[Field.str "2015-06-01", Field.str "0"], [Field.str "2015-01-01", Field.str "1"]] 0
      = [true, true, true] := by
  decide

/-- Claim C3: the batch flag returned by the labeler is true iff some row
received a true value for the 30-day label (the head of its label list), and
the emitted rows are a function of the input alone, computed independently of
the flag. -/
theorem C3_batch_flag_iff (headers : List String) (data : List (List Field)) :
    ((update_data_to_include_classfication_output_labels headers data).2.2 = true ↔
      ∃ i, i < data.length ∧ (labelsAt data i).head? = some true)
    ∧ (update_data_to_include_classfication_output_labels headers data).2.1
        = labelPass (data.map parsePhaseRow) := by
  constructor
  · show batchTemp (data.map parsePhaseRow) = true ↔ _
    rw [batchTemp_iff]
    constructor
    · rintro ⟨i, hi, hp⟩
      exact ⟨i, by simpa using hi, hp⟩
    · rintro ⟨i, hi, hp⟩
      exact ⟨i, by simpa using hi, hp⟩
  · rfl

/-- Claim C4 (amended): a malformed date never aborts the batch (one output
row per input row), and rows after the last malformed position are labeled
normally; but contrary to the claim, every row at or before the position of a
malformed-date row is also affected: the TypeError raised when its filter
compares the None date poisons its whole label computation, leaving that row
with no labels at all. -/
theorem C4_malformed_date_poisons_earlier_rows (headers : List String) (data : List (List Field)) :
    (update_data_to_include_classfication_output_labels headers data).2.1.length = data.length
    ∧ ∀ i j : Nat, i ≤ j → j < data.length →
        dateCell (parsedRow data j) = Field.none → labelsAt data i = [] := by
  constructor
  · show (labelPass (data.map parsePhaseRow)).length = data.length
    rw [labelPass_length, List.length_map]
  · intro i j hij hj hnone
    have hmem : parsedRow data j ∈ parsedTail data i :=
      parsedRow_mem_parsedTail data i j hij hj
    have hnl : lambdaCond (parsedRow data i) (parsedRow data j) fail_30 = Option.none :=
      lambdaCond_none_of_bad_date hnone
    exact rowLabels_nil_of_filter_none (boolFilter_none_of_mem hmem hnl)

/-- Witness for claim C4: a malformed second row costs the first row its
labels while the batch still emits both rows. -/
theorem C4_witness :
    (update_data_to_include_classfication_output_labels ["date", "failure"]
        [[Field.str "2015-01-01", Field.str "1"], [Field.str "oops", Field.str "0"]]).2.1.length
      = 2
    ∧ labelsAt [[Field.str "2015-01-01", Field.str "1"], [Field.str "oops", Field.str "0"]] 0
        = [] :=
  ⟨(C4_malformed_date_poisons_earlier_rows ["date", "failure"]
      [[Field.str "2015-01-01", Field.str "1"], [Field.str "oops", Field.str "0"]]).1,
   (C4_malformed_date_poisons_earlier_rows ["date", "failure"]
      [[Field.str "2015-01-01", Field.str "1"], [Field.str "oops", Field.str "0"]]).2
      0 1 (by decide) (by decide) (by decide)⟩

/-- Counterexample to claim C4 as stated: two batches differing only in the
date string of the second row.  With a well-formed second date the first row
is labeled [true, true, true]; with a malformed second date the same first
row receives no labels, so the parse failure did affect another row's
labels. -/
theorem C4_counterexample :
    labelsAt [[Field.str "2015-01-01", Field.str "1"], [Field.str "2015-01-02", Field.str "0"]] 0
      = [true, true, true] ∧
    labelsAt [[Field.str "2015-01-01", Field.str "1"], [Field.str "oops", Field.str "0"]] 0
      = [] ∧
    parse_date "2015-01-02" = some ⟨2015, 1, 2⟩ ∧
    parse_date "oops" = Option.none := by
  decide

/-- Claim C5: among the configured horizons 1 < 15 < 30, a true label at the
smaller horizon implies a true label at the larger one, whenever the row's
labels were computed ([op_fail_30, op_fail_15, op_fail_1] order). -/
theorem C5_label_monotone_in_horizon (data : List (List Field)) (i : Nat) (a b c : Bool)
    (hl : labelsAt data i = [a, b, c]) :
    (c = true → b = true) ∧ (c = true → a = true) ∧ (b = true → a = true) := by
  obtain ⟨h30, h15, h1⟩ := rowLabels_eq_cons3 hl
  exact ⟨fun hc => boolFilter_mono (show fail_1 ≤ fail_15 by decide) h1 h15 hc,
    fun hc => boolFilter_mono (show fail_1 ≤ fail_30 by decide) h1 h30 hc,
    fun hb => boolFilter_mono (show fail_15 ≤ fail_30 by decide) h15 h30 hb⟩

/-- Witness for claim C5 on a one-row failed batch, whose labels are all
true. -/
theorem C5_witness :
    (true = true → true = true) ∧ (true = true → true = true) ∧ (true = true → true = true) :=
  C5_label_monotone_in_horizon [[Field.str "2015-03-01", Field.str "1"]] 0 true true true
    (by decide)

/-- Claim C6: when the integer value of every row's failure flag is 0, no
label ever comes out true: each row's label list is [false, false, false], or
empty when its computation raised. -/
theorem C6_all_nonfailing_all_labels_false (data : List (List Field))
    (hall : ∀ r ∈ data, intOfField (failCell r) = some 0) :
    ∀ i : Nat, labelsAt data i = [] ∨ labelsAt data i = [false, false, false] := by
  intro i
  have htl : ∀ x ∈ parsedTail data i, intOfField (failCell x) = some 0 := by
    intro x hx
    obtain ⟨r, hr, rfl⟩ := parsedTail_sub data i hx
    rw [failCell_parsePhaseRow]
    exact hall r hr
  have hfalse : ∀ hh : Nat, ∀ bb : Bool,
      boolFilter (parsedRow data i) hh (parsedTail data i) = some bb → bb = false := by
    intro hh bb hbf
    cases hbb : bb with
    | false => rfl
    | true =>
      obtain ⟨x, hx, hxt⟩ := (boolFilter_true_iff hbf).mp hbb
      have h1 := (lambdaCond_true_elim hxt).1
      rw [htl x hx] at h1
      exact absurd (Option.some.inj h1) (by norm_num)
  rcases rowLabels_shape (parsedRow data i) (parsedTail data i) with hsh | ⟨a, b, c, hsh⟩
  · left
    exact hsh
  · right
    have hsh' : labelsAt data i = [a, b, c] := hsh
    obtain ⟨h30, h15, h1⟩ := rowLabels_eq_cons3 hsh'
    rw [hsh', hfalse fail_30 a h30, hfalse fail_15 b h15, hfalse fail_1 c h1]

/-- Witness for claim C6: a batch of two non-failing rows, the second with a
malformed date, so its rows fall under both disjuncts. -/
theorem C6_witness :
    labelsAt [[Field.str "2015-01-01", Field.str "0"], [Field.str "oops", Field.str "0"]] 1 = []
    ∨ labelsAt [[Field.str "2015-01-01", Field.str "0"], [Field.str "oops", Field.str "0"]] 1
        = [false, false, false] :=
  C6_all_nonfailing_all_labels_false
    [[Field.str "2015-01-01", Field.str "0"], [Field.str "oops", Field.str "0"]] (by decide) 1

/-- Claim C8 (amended): the labeler is deterministic, equal inputs giving
equal headers, rows and flag; but it is not idempotent on the very sequence
it returns, because it mutates rows in place (date cell rewritten, three
label cells appended): feeding its output rows straight back in yields rows
each extended by three further label booleans, not identical output. -/
theorem C8_deterministic_not_idempotent :
    (∀ (h1 h2 : List String) (d1 d2 : List (List Field)), h1 = h2 → d1 = d2 →
      update_data_to_include_classfication_output_labels h1 d1
        = update_data_to_include_classfication_output_labels h2 d2)
    ∧ (update_data_to_include_classfication_output_labels ["date", "failure"]
        ((update_data_to_include_classfication_output_labels ["date", "failure"]
          [[Field.str "2015-01-01", Field.str "1"]]).2.1)).2.1
      = (update_data_to_include_classfication_output_labels ["date", "failure"]
          [[Field.str "2015-01-01", Field.str "1"]]).2.1.map
          (fun r => r ++ [Field.bool true, Field.bool true, Field.bool true]) := by
  constructor
  · intro h1 h2 d1 d2 hh hd
    rw [hh, hd]
  · decide

/-- Witness for claim C8: determinism applied at a concrete batch. -/
theorem C8_witness :
    update_data_to_include_classfication_output_labels ["date", "failure"]
        [[Field.str "2015-01-01", Field.str "1"]]
      = update_data_to_include_classfication_output_labels ["date", "failure"]
        [[Field.str "2015-01-01", Field.str "1"]] :=
  C8_deterministic_not_idempotent.1 _ _ _ _ rfl rfl

/-- Counterexample to claim C8 as stated: re-running the labeler on the very
row list it returned (the rows having been mutated in place) does not
reproduce the first output. -/
theorem C8_counterexample :
    (update_data_to_include_classfication_output_labels ["date", "failure"]
        ((update_data_to_include_classfication_output_labels ["date", "failure"]
          [[Field.str "2015-01-01", Field.str "1"]]).2.1)).2.1
      ≠ (update_data_to_include_classfication_output_labels ["date", "failure"]
          [[Field.str "2015-01-01", Field.str "1"]]).2.1 := by
  decide

/-- Claim C9: on an empty observation list the labeler returns the extended
header, an empty row list and a false batch flag, raising nothing. -/
theorem C9_empty_batch (headers : List String) :
    update_data_to_include_classfication_output_labels headers []
      = (headers ++ ["op_fail_30", "op_fail_15", "op_fail_1"], [], false) := rfl

/-- Claim C10: a row whose date string does not parse is emitted exactly as
its original cells with a None date cell and no label cells appended, so its
length stays that of the unextended header, strictly below the extended
header's length. -/
theorem C10_malformed_row_emitted_short (headers : List String) (data : List (List Field))
    (i : Nat) (s : String)
    (hi : i < data.length)
    (hcell : dateCell (data.getD i []) = Field.str s)
    (hbad : parse_date s = Option.none)
    (hrow : (data.getD i []).length = headers.length) :
    (update_data_to_include_classfication_output_labels headers data).2.1.getD i []
        = (data.getD i []).set 0 Field.none
    ∧ ((update_data_to_include_classfication_output_labels headers data).2.1.getD i []).length
        = headers.length
    ∧ headers.length
        < (update_data_to_include_classfication_output_labels headers data).1.length := by
  have hne : data.getD i [] ≠ [] := by
    intro hnil
    rw [hnil] at hcell
    exact Field.noConfusion hcell
  have hpr : parsedRow data i = (data.getD i []).set 0 Field.none := by
    rw [parsedRow_eq data i hi, parsePhaseRow, hcell]
    rw [show parseDateField (Field.str s) = Field.none from by rw [parseDateField, hbad]]
  have hdc : dateCell (parsedRow data i) = Field.none := by
    rw [hpr]
    exact dateCell_set0 _ _ hne
  have hlabels : rowLabels (parsedRow data i) (parsedTail data i) = [] := by
    have hmem : parsedRow data i ∈ parsedTail data i :=
      parsedRow_mem_parsedTail data i i (Nat.le_refl i) hi
    exact rowLabels_nil_of_filter_none
      (boolFilter_none_of_mem hmem (lambdaCond_none_of_bad_date hdc))
  have hrow_out : (update_data_to_include_classfication_output_labels headers data).2.1.getD i []
      = (data.getD i []).set 0 Field.none := by
    show (labelPass (data.map parsePhaseRow)).getD i [] = _
    rw [labelPass_getD _ i (by simpa using hi)]
    show finalizeRow (parsedRow data i) (rowLabels (parsedRow data i) (parsedTail data i)) = _
    rw [hlabels, finalizeRow, hdc]
    show (parsedRow data i).set 0 (formatDateField Field.none) ++ [] = _
    rw [List.append_nil, hpr, List.set_set]
    rfl
  refine ⟨hrow_out, ?_, ?_⟩
  · rw [hrow_out, List.length_set]
    exact hrow
  · show headers.length < (headers ++ ["op_fail_30", "op_fail_15", "op_fail_1"]).length
    have h3 : (["op_fail_30", "op_fail_15", "op_fail_1"] : List String).length = 3 := rfl
    rw [List.length_append, h3]
    omega

/-- Witness for claim C10 on a one-row batch with unparseable date. -/
theorem C10_witness :
    (update_data_to_include_classfication_output_labels ["date", "failure"]
        [[Field.str "oops", Field.str "1"]]).2.1.getD 0 []
      = ([Field.str "oops", Field.str "1"].set 0 Field.none)
    ∧ ((update_data_to_include_classfication_output_labels ["date", "failure"]
        [[Field.str "oops", Field.str "1"]]).2.1.getD 0 []).length
      = (["date", "failure"] : List String).length
    ∧ (["date", "failure"] : List String).length
      < (update_data_to_include_classfication_output_labels ["date", "failure"]
          [[Field.str "oops", Field.str "1"]]).1.length :=
  C10_malformed_row_emitted_short ["date", "failure"] [[Field.str "oops", Field.str "1"]]
    0 "oops" (by decide) (by decide) (by decide) (by decide)

end DiskDrive
